import Mathlib

/-!
Verification of the Modrinth collection import tool (src/main.py) against its
natural-language specification.  The Python source is shallowly embedded:
pure helpers become Lean functions, the interactive orchestrator becomes a
function over an explicit list of operator input lines, machine-level effects
(HTTP, files) are represented by the data they carry.
-/

namespace ModrinthTool

/-! ## Model of CPython urllib.parse (the parts main.py line 100 relies on)

main.py calls urlparse from the standard library.  The model below follows
CPython urlsplit and urlparse: strip leading C0-control-or-space characters,
remove tab, CR and LF everywhere, split off a scheme when the text before the
first colon is a letter followed by scheme characters, take the authority
after a leading double slash up to a slash, question mark or hash, then split
fragment, query and (for schemes that use them) params.  A mismatched square
bracket in the authority raises ValueError in CPython; the model returns an
error value for it.  Case lowering in the model is ASCII, which agrees with
the Python behaviour on every comparison the tool performs. -/

/-- Python str.split with a one-character separator: split at every
occurrence, keeping empty pieces, so the result of splitting the empty
string is one empty piece. -/
def splitAllChar (sep : Char) : List Char → List (List Char)
  | [] => [[]]
  | c :: rest =>
    let r := splitAllChar sep rest
    if c == sep then [] :: r
    else
      match r with
      | h :: t => (c :: h) :: t
      | [] => [[c]]

/-- ASCII lowering of a character list (Python str.lower; the two agree on
every comparison the tool performs). -/
def lowerChars (l : List Char) : List Char := l.map Char.toLower

/-- ASCII lowering of a string. -/
def lowerString (s : String) : String := (lowerChars s.toList).asString

/-- Leading characters CPython urlsplit strips from a URL: C0 controls and space. -/
def isC0ControlOrSpace (c : Char) : Bool := c.toNat ≤ 0x20

/-- Characters CPython urlsplit removes from anywhere in a URL. -/
def isUnsafeUrlChar (c : Char) : Bool := c == '\t' || c == '\r' || c == '\n'

/-- The cleaning pass urlsplit applies before parsing. -/
def cleanUrl (s : String) : List Char :=
  (s.toList.dropWhile isC0ControlOrSpace).filter (fun c => !isUnsafeUrlChar c)

/-- Characters allowed in a URL scheme (CPython scheme_chars). -/
def isSchemeChar (c : Char) : Bool :=
  c.isAlpha || c.isDigit || c == '+' || c == '-' || c == '.'

/-- Split off the scheme:  CPython takes url up to the first colon as the
scheme when that colon exists at a positive index, the first character is an
ASCII letter and everything before the colon is a scheme character.  Returns
(lowercased scheme, remainder) on success. -/
def splitScheme (l : List Char) : Option (List Char × List Char) :=
  match l.findIdx? (fun c => c == ':') with
  | some i =>
    if 0 < i ∧ (l.take i).all isSchemeChar ∧ (l.headI).isAlpha then
      some ((l.take i).map Char.toLower, l.drop (i + 1))
    else none
  | none => none

/-- CPython _splitnetloc with start 2: the authority runs until the first
slash, question mark or hash.  The argument is the text after the leading
double slash. -/
def splitNetloc (l : List Char) : List Char × List Char :=
  let netloc := l.takeWhile (fun c => !(c == '/' || c == '?' || c == '#'))
  (netloc, l.drop netloc.length)

/-- Python str.split(sep, 1): text before the first separator and text after
it (everything unchanged, empty second component, when the separator is
absent). -/
def splitOnceChar (sep : Char) (l : List Char) : List Char × List Char :=
  (l.takeWhile (fun c => c != sep), (l.dropWhile (fun c => c != sep)).drop 1)

/-- Result record of urlsplit (params still attached to the path). -/
structure SplitUrl where
  scheme : String
  netloc : String
  path : String
  query : String
  fragment : String
deriving Repr, DecidableEq

/-- Model of CPython urlsplit with allow_fragments true.  Returns an error
value where CPython raises ValueError for a mismatched bracket in the
authority. -/
def urlsplitE (url : String) : Except String SplitUrl :=
  let l := cleanUrl url
  let (scheme, rest) :=
    match splitScheme l with
    | some (s, r) => (s, r)
    | none => (([] : List Char), l)
  if rest.take 2 = ['/', '/'] then
    let (netloc, rest2) := splitNetloc (rest.drop 2)
    if (netloc.contains '[' && !netloc.contains ']')
        || (netloc.contains ']' && !netloc.contains '[') then
      .error "Invalid IPv6 URL"
    else
      let (rest3, fragment) := splitOnceChar '#' rest2
      let (path, query) := splitOnceChar '?' rest3
      .ok ⟨scheme.asString, netloc.asString, path.asString,
           query.asString, fragment.asString⟩
  else
    let (rest3, fragment) := splitOnceChar '#' rest
    let (path, query) := splitOnceChar '?' rest3
    .ok ⟨scheme.asString, "", path.asString, query.asString, fragment.asString⟩

/-- Schemes whose URLs carry params (CPython uses_params). -/
def usesParams : List String :=
  ["", "ftp", "hdl", "prospero", "http", "imap", "https", "shttp", "rtsp",
   "rtspu", "sip", "sips", "mms", "sftp", "tel"]

/-- CPython _splitparams: params start at the first semicolon inside the last
path segment. -/
def splitparams (l : List Char) : List Char × List Char :=
  if l.contains '/' then
    let k := l.length - 1 - l.reverse.findIdx (fun c => c == '/')
    let tl := l.drop k
    if tl.contains ';' then
      let (a, b) := splitOnceChar ';' tl
      (l.take k ++ a, b)
    else (l, [])
  else splitOnceChar ';' l

/-- Result record of urlparse; main.py reads netloc and path from it. -/
structure ParseResult where
  scheme : String
  netloc : String
  path : String
  params : String
  query : String
  fragment : String
deriving Repr, DecidableEq

/-- Model of CPython urlparse: urlsplit, then split params off the path for
schemes that use them. -/
def urlparseE (url : String) : Except String ParseResult :=
  match urlsplitE url with
  | .error e => .error e
  | .ok r =>
    if usesParams.contains r.scheme ∧ r.path.toList.contains ';' then
      let (p, ps) := splitparams r.path.toList
      .ok ⟨r.scheme, r.netloc, p.asString, ps.asString, r.query, r.fragment⟩
    else
      .ok ⟨r.scheme, r.netloc, r.path, "", r.query, r.fragment⟩

/-! ## Reference Normalizer (main.py lines 92-112) -/

/-- Body of extract_modrinth_project_id after the parse succeeded
(main.py lines 104-112). -/
def extractFromParsed (parsed : ParseResult) : Option String :=
  let host := lowerString parsed.netloc
  if host = "modrinth.com" ∨ host = "www.modrinth.com" then
    let parts := (splitAllChar '/' parsed.path.toList).filter (fun p => p ≠ [])
    match parts with
    | t :: pid :: _ =>
      if (lowerChars t).asString = "mod" then some pid.asString else none
    | _ => none
  else none

/-- main.py extract_modrinth_project_id: parse the URL (an exception becomes
none), check the host, split the path and return the second nonempty
segment when the first is the mod tag. -/
def extract_modrinth_project_id (url : String) : Option String :=
  match urlparseE url with
  | .error _ => none
  | .ok parsed => extractFromParsed parsed

/-! ## Lexicographic order on strings

Python sorted compares strings lexicographically by code point.  The
comparison is given as an executable Boolean on character lists, together
with the order properties the sorting lemmas need. -/

/-- Lexicographic comparison of character lists by code point. -/
def leChars : List Char → List Char → Bool
  | [], _ => true
  | _ :: _, [] => false
  | a :: as, b :: bs =>
    if a < b then true else if b < a then false else leChars as bs

/-- Lexicographic order on strings, as Python compares them. -/
def strLe (a b : String) : Prop := leChars a.toList b.toList = true

instance : DecidableRel strLe := fun a b => by unfold strLe; infer_instance

theorem leChars_total : ∀ a b, leChars a b = true ∨ leChars b a = true := by
  intro a
  induction a with
  | nil => intro b; left; rfl
  | cons x xs ih =>
    intro b
    cases b with
    | nil => right; rfl
    | cons y ys =>
      simp only [leChars]
      rcases lt_trichotomy x y with h | h | h
      · left; simp [h]
      · subst h
        simp only [lt_irrefl, if_false]
        exact ih ys
      · right; simp [h, not_lt.mpr (le_of_lt h)]

theorem leChars_trans :
    ∀ a b c, leChars a b = true → leChars b c = true → leChars a c = true := by
  intro a
  induction a with
  | nil => intro b c _ _; rfl
  | cons x xs ih =>
    intro b c hab hbc
    cases b with
    | nil => simp [leChars] at hab
    | cons y ys =>
      cases c with
      | nil => simp [leChars] at hbc
      | cons z zs =>
        simp only [leChars] at hab hbc ⊢
        rcases lt_trichotomy x y with hxy | hxy | hxy
        · rcases lt_trichotomy y z with hyz | hyz | hyz
          · simp [lt_trans hxy hyz]
          · subst hyz; simp [hxy]
          · simp [hyz, not_lt.mpr (le_of_lt hyz)] at hbc
        · subst hxy
          rcases lt_trichotomy x z with hxz | hxz | hxz
          · simp [hxz]
          · subst hxz
            simp only [lt_irrefl, if_false] at hab hbc ⊢
            exact ih ys zs hab hbc
          · simp [hxz, not_lt.mpr (le_of_lt hxz)] at hbc
        · simp [hxy, not_lt.mpr (le_of_lt hxy)] at hab

theorem leChars_antisymm : ∀ a b, leChars a b = true → leChars b a = true → a = b := by
  intro a
  induction a with
  | nil =>
    intro b _ hba
    cases b with
    | nil => rfl
    | cons y ys => simp [leChars] at hba
  | cons x xs ih =>
    intro b hab hba
    cases b with
    | nil => simp [leChars] at hab
    | cons y ys =>
      simp only [leChars] at hab hba
      rcases lt_trichotomy x y with h | h | h
      · simp [h, not_lt.mpr (le_of_lt h)] at hba
      · subst h
        simp only [lt_irrefl, if_false] at hab hba
        exact congrArg (List.cons x) (ih ys hab hba)
      · simp [h, not_lt.mpr (le_of_lt h)] at hab

instance : IsTotal String strLe := ⟨fun a b => leChars_total a.toList b.toList⟩

instance : IsTrans String strLe := ⟨fun a b c => leChars_trans a.toList b.toList c.toList⟩

instance : IsAntisymm String strLe :=
  ⟨fun a b hab hba => String.ext (leChars_antisymm a.toList b.toList hab hba)⟩

/-! ## Collection Merge Engine (main.py lines 396-401)

The Python builds existing_set = set(str(p) for p in existing_projects) and
to_add_set = set(project_ids_from_modlist), then
final_set = sorted(existing_set.union(to_add_set)) and
added_count = len(final_set) - len(existing_set).  A Python set of strings
is the collection of distinct elements of the list it was built from, so
the model works on the distinct elements (List.dedup) of the argument
lists. -/

/-- main.py lines 396-401: sorted union of the two sets with the count of
newly added members. -/
def merge (existing incoming : List String) : List String × Int :=
  let finalList := ((existing ++ incoming).dedup).insertionSort strLe
  (finalList, (finalList.length : Int) - (existing.dedup.length : Int))

/-! ## Operator interaction and the orchestrator (main.py lines 115-414)

The interactive parts of main.py read lines with input().  The model passes
the operator's lines as an explicit list; reading past its end stands for
the EOFError a real terminal closure would raise.  sys.exit(c) becomes the
exited c outcome, an uncaught exception (the RuntimeError raised for an
unknown explicit collection id, or a failed PATCH) becomes err.  HTTP
traffic appears as data: the fetched collection list and collection detail
are parameters, and the list of issued PATCH payloads is part of the
result. -/

/-- Python str.strip() on the ASCII whitespace Python strips. -/
def pyIsSpace (c : Char) : Bool :=
  c == ' ' || c == '\t' || c == '\n' || c == '\r' || c == '\x0b' || c == '\x0c'

/-- Python str.strip(): drop whitespace from both ends. -/
def pyStrip (s : String) : String :=
  (((s.toList.dropWhile pyIsSpace).reverse.dropWhile pyIsSpace).reverse).asString

/-- Value of a nonnegative digit string. -/
def natOfDigits (l : List Char) : Nat :=
  l.foldl (fun a c => 10 * a + (c.toNat - 48)) 0

/-- Python int(s) on an already stripped string: an optional sign followed by
at least one digit. -/
def pyToInt (s : String) : Option Int :=
  match s.toList with
  | [] => none
  | '-' :: ds =>
    if ds ≠ [] ∧ ds.all Char.isDigit then some (-(natOfDigits ds : Int)) else none
  | '+' :: ds =>
    if ds ≠ [] ∧ ds.all Char.isDigit then some (natOfDigits ds : Int) else none
  | ds => if ds.all Char.isDigit then some (natOfDigits ds : Int) else none

/-- One modlist record: a name and an optional url (main.py docstring). -/
structure ModEntry where
  name : Option String
  url : Option String
deriving Repr, DecidableEq

/-- One record of the fetched collection list; main.py reads its id. -/
structure Collection where
  id : Option String
  name : Option String
deriving Repr, DecidableEq

/-- The projects field of a fetched collection detail as main.py lines
391-394 see it: falsy stands for an absent key or null, strList for a JSON
list of members, falsyNonSeq for a falsy value that is not a sequence (the
empty string, 0, false, an empty object), and malformed for a truthy value
that is not a sequence.  The two falsy kinds are kept apart because line
391 applies the or-empty-list default before the isinstance check at line
392 ever runs, so a falsy non-sequence never reaches that check. -/
inductive ProjField where
  | falsy : ProjField
  | strList : List String → ProjField
  | falsyNonSeq : ProjField
  | malformed : ProjField
deriving Repr, DecidableEq

/-- The collection detail record fetched at main.py line 390. -/
structure CollectionDetail where
  projects : ProjField
deriving Repr, DecidableEq

/-- Outcome of a piece of interactive code: a value plus the unconsumed
input lines, a sys.exit, an uncaught exception, or input() hitting the end
of the stream. -/
inductive Res (α : Type) where
  | ok : α → List String → Res α
  | exited : Nat → Res α
  | err : Res α
  | eof : Res α
deriving Repr, DecidableEq

/-- main.py prompt_for_modrinth_url lines 130-145: loop over operator
lines; q aborts with sys.exit(1), s skips, u reads a URL and re-prompts
until it normalizes. -/
def prompt_for_modrinth_url : List String → Res (Option String)
  | [] => .eof
  | ans :: rest =>
    let a := lowerString (pyStrip ans)
    if a = "q" ∨ a = "quit" then .exited 1
    else if a = "s" ∨ a = "skip" then .ok none rest
    else if a = "u" ∨ a = "url" then
      match rest with
      | [] => .eof
      | newUrl :: rest2 =>
        match extract_modrinth_project_id (pyStrip newUrl) with
        | some pid => .ok (some pid) rest2
        | none => prompt_for_modrinth_url rest2
    else prompt_for_modrinth_url rest

/-- main.py collect_project_ids_from_modlist lines 148-173 with its loop
state (accumulated ids and skip count) explicit: normalize each entry url,
fall back to the interactive resolver, append unseen ids, count skips. -/
def collect_project_ids_from_modlist :
    List ModEntry → List String → List String → Nat → Res (List String × Nat)
  | [], inputs, acc, skipped => .ok (acc, skipped) inputs
  | e :: rest, inputs, acc, skipped =>
    let pid0 : Option String :=
      match e.url with
      | some u => if u = "" then none else extract_modrinth_project_id u
      | none => none
    match pid0 with
    | some pid =>
      collect_project_ids_from_modlist rest inputs
        (if acc.contains pid then acc else acc ++ [pid]) skipped
    | none =>
      match prompt_for_modrinth_url inputs with
      | .ok (some pid) inputs2 =>
        collect_project_ids_from_modlist rest inputs2
          (if acc.contains pid then acc else acc ++ [pid]) skipped
      | .ok none inputs2 =>
        collect_project_ids_from_modlist rest inputs2 acc (skipped + 1)
      | .exited c => .exited c
      | .err => .err
      | .eof => .eof

/-- Interactive part of main.py choose_collection lines 258-282: q aborts
with sys.exit(1), a pasted id matching a collection is returned, a numeral
in range selects by ordinal (returning that collection's id field), and
anything else re-prompts. -/
def choose_collection_loop (collections : List Collection) : List String → Res (Option String)
  | [] => .eof
  | ans0 :: rest =>
    let ans := pyStrip ans0
    if lowerString ans = "q" ∨ lowerString ans = "quit" then .exited 1
    else if collections.any (fun col => col.id == some ans) then .ok (some ans) rest
    else
      match pyToInt ans with
      | some idx =>
        if 1 ≤ idx ∧ idx ≤ (collections.length : Int) then
          match collections.get? (idx.toNat - 1) with
          | some col => .ok col.id rest
          | none => choose_collection_loop collections rest
        else choose_collection_loop collections rest
      | none => choose_collection_loop collections rest

/-- main.py choose_collection lines 229-282: a truthy explicit id must name
a fetched collection or a RuntimeError is raised; otherwise an empty
collection list is sys.exit(1) and the operator picks interactively. -/
def choose_collection (collections : List Collection) (explicitId : Option String)
    (inputs : List String) : Res (Option String) :=
  let interactive : Res (Option String) :=
    if collections = [] then .exited 1 else choose_collection_loop collections inputs
  match explicitId with
  | some eid =>
    if eid ≠ "" then
      if collections.any (fun col => col.id == some eid) then .ok (some eid) inputs
      else .err
    else interactive
  | none => interactive

/-- How a finished run of the orchestrator ended. -/
inductive RunStatus where
  | completed : RunStatus
  | exited : Nat → RunStatus
  | err : RunStatus
  | eof : RunStatus
deriving Repr, DecidableEq

/-- Observable outcome of the orchestrator: how the run ended, every PATCH
payload it sent, whether the malformed-projects warning was printed, and
the computed (final members, added count) summary when the run got that
far. -/
structure MainResult where
  status : RunStatus
  patches : List (List String)
  warnedProjects : Bool
  summary : Option (List String × Int)
deriving Repr, DecidableEq

/-- main.py lines 391-394: any falsy projects field (absent, null, or a
falsy non-sequence such as the empty string) is replaced by the empty list
by the or-default at line 391 without a warning; a truthy non-list survives
the default, fails the isinstance check at line 392 and is warned about,
then becomes the empty list. -/
def existingProjectsOf : ProjField → List String × Bool
  | .falsy => ([], false)
  | .strList l => (l, false)
  | .falsyNonSeq => ([], false)
  | .malformed => ([], true)

/-- main.py lines 372-414, the orchestration after the collection list is
available: choose a collection, resolve the modlist, merge with the chosen
collection's current members, confirm, and PATCH unless the dry-run flag
is set.  patchOk tells whether the remote answers the PATCH with 204
(main.py line 314 raises otherwise). -/
def main_after_sync (collections : List Collection) (explicitId : Option String)
    (modlist : List ModEntry) (detail : CollectionDetail)
    (dryRun : Bool) (patchOk : Bool) (inputs : List String) : MainResult :=
  match choose_collection collections explicitId inputs with
  | .exited c => ⟨.exited c, [], false, none⟩
  | .err => ⟨.err, [], false, none⟩
  | .eof => ⟨.eof, [], false, none⟩
  | .ok _cid inputs1 =>
    match collect_project_ids_from_modlist modlist inputs1 [] 0 with
    | .exited c => ⟨.exited c, [], false, none⟩
    | .err => ⟨.err, [], false, none⟩
    | .eof => ⟨.eof, [], false, none⟩
    | .ok (pids, _skipped) inputs2 =>
      let ep := existingProjectsOf detail.projects
      let (finalList, added) := merge ep.1 pids
      match inputs2 with
      | [] => ⟨.eof, [], ep.2, some (finalList, added)⟩
      | confirm :: _rest =>
        let c := lowerString (pyStrip confirm)
        if c = "y" ∨ c = "yes" then
          if dryRun then ⟨.completed, [], ep.2, some (finalList, added)⟩
          else if patchOk then ⟨.completed, [finalList], ep.2, some (finalList, added)⟩
          else ⟨.err, [finalList], ep.2, some (finalList, added)⟩
        else ⟨.exited 0, [], ep.2, some (finalList, added)⟩

/-! ## Local state snapshot (main.py lines 192-220)

load_state and save_state are file I/O; what is in scope for the claims is
the content transformation sync_collections_to_state applies between them.
A JSON object is embedded as a map from top-level key to an optional
value. -/

/-- main.py lines 216-219: the dict update sync_collections_to_state
applies to the loaded state before saving it: assign user_id, collections
and synced_at, touch nothing else. -/
def sync_collections_to_state {V : Type} (state : String → Option V)
    (userId collections syncedAt : V) : String → Option V :=
  fun k =>
    if k = "user_id" then some userId
    else if k = "collections" then some collections
    else if k = "synced_at" then some syncedAt
    else state k

/-! ## Helper lemmas about merge -/

theorem dedup_toFinset (l : List String) : l.dedup.toFinset = l.toFinset :=
  List.toFinset.ext fun _ => List.mem_dedup

theorem merge_fst_perm (e i : List String) : ((merge e i).1).Perm ((e ++ i).dedup) :=
  List.perm_insertionSort _ _

theorem merge_fst_nodup (e i : List String) : ((merge e i).1).Nodup :=
  ((merge_fst_perm e i).nodup_iff).mpr (List.nodup_dedup _)

theorem merge_fst_sorted (e i : List String) : List.Sorted strLe (merge e i).1 :=
  List.sorted_insertionSort _ _

theorem merge_fst_toFinset (e i : List String) :
    ((merge e i).1).toFinset = e.toFinset ∪ i.toFinset := by
  rw [List.toFinset_eq_of_perm _ _ (merge_fst_perm e i), dedup_toFinset,
    List.toFinset_append]

theorem merge_snd_eq (e i : List String) :
    (merge e i).2 = ((e.toFinset ∪ i.toFinset).card : Int) - (e.toFinset.card : Int) := by
  show (((merge e i).1).length : Int) - (e.dedup.length : Int) = _
  rw [(merge_fst_perm e i).length_eq, ← List.card_toFinset, ← List.card_toFinset,
    List.toFinset_append]

/-! ## Claim theorems -/

/-- C2: for every pair of sets of CanonicalId strings (given through any
list representatives), merge returns the union of the two sets arranged in
lexicographically sorted order with no duplicates, and added_count equal to
the size of the final set minus the size of the existing set; on
existing a,c and incoming b,a it returns a,b,c with added_count 1, and the
final list always contains the existing set. -/
theorem merge_is_sorted_union_with_delta (existing incoming : List String) :
    List.Sorted strLe (merge existing incoming).1
    ∧ ((merge existing incoming).1).Nodup
    ∧ ((merge existing incoming).1).toFinset = existing.toFinset ∪ incoming.toFinset
    ∧ (merge existing incoming).2
        = ((existing.toFinset ∪ incoming.toFinset).card : Int) - (existing.toFinset.card : Int)
    ∧ existing.toFinset ⊆ ((merge existing incoming).1).toFinset
    ∧ merge ["a", "c"] ["b", "a"] = (["a", "b", "c"], 1) :=
  ⟨merge_fst_sorted _ _, merge_fst_nodup _ _, merge_fst_toFinset _ _, merge_snd_eq _ _,
    by rw [merge_fst_toFinset]; exact Finset.subset_union_left, by decide⟩

/-- C5: merge is idempotent: when merge existing incoming returns
(finalList, n), merging finalList with the same incoming set returns
exactly (finalList, 0). -/
theorem merge_idempotent_on_result (existing incoming finalList : List String) (n : Int)
    (h : merge existing incoming = (finalList, n)) :
    merge finalList incoming = (finalList, 0) := by
  have hf1 : (merge existing incoming).1 = finalList := by rw [h]
  have hnd : finalList.Nodup := hf1 ▸ merge_fst_nodup existing incoming
  have hsort : List.Sorted strLe finalList := hf1 ▸ merge_fst_sorted existing incoming
  have hfin : finalList.toFinset = existing.toFinset ∪ incoming.toFinset :=
    hf1 ▸ merge_fst_toFinset existing incoming
  have hsub : incoming.toFinset ⊆ finalList.toFinset := by
    rw [hfin]; exact Finset.subset_union_right
  have hfin2 : ((merge finalList incoming).1).toFinset = finalList.toFinset := by
    rw [merge_fst_toFinset]
    exact Finset.union_eq_left.mpr hsub
  have heq : (merge finalList incoming).1 = finalList :=
    List.eq_of_perm_of_sorted
      (List.perm_of_nodup_nodup_toFinset_eq (merge_fst_nodup _ _) hnd hfin2)
      (merge_fst_sorted _ _) hsort
  have hsnd : (merge finalList incoming).2 = 0 := by
    rw [merge_snd_eq, Finset.union_eq_left.mpr hsub]
    simp
  exact Prod.ext heq hsnd

/-- Witness for C5 at existing a,c and incoming b,a. -/
theorem merge_idempotent_on_result_witness :
    merge ["a", "b", "c"] ["b", "a"] = (["a", "b", "c"], 0) :=
  merge_idempotent_on_result ["a", "c"] ["b", "a"] ["a", "b", "c"] 1 (by decide)

/-- Behaviour of the post-parse body of the normalizer on any parsed URL:
the second nonempty path segment comes back verbatim when the host is
canonical and the first segment is the mod tag, and every other host, a
first segment other than the mod tag, or a segmentless path gives none. -/
theorem extractFromParsed_spec (parsed : ParseResult) :
    ((lowerString parsed.netloc = "modrinth.com"
        ∨ lowerString parsed.netloc = "www.modrinth.com") →
      ∀ t pid rest,
        (splitAllChar '/' parsed.path.toList).filter (fun p => p ≠ []) = t :: pid :: rest →
        (lowerChars t).asString = "mod" →
        extractFromParsed parsed = some pid.asString)
    ∧ (lowerString parsed.netloc ≠ "modrinth.com" →
        lowerString parsed.netloc ≠ "www.modrinth.com" →
        extractFromParsed parsed = none)
    ∧ (∀ t rest,
        (splitAllChar '/' parsed.path.toList).filter (fun p => p ≠ []) = t :: rest →
        (lowerChars t).asString ≠ "mod" →
        extractFromParsed parsed = none)
    ∧ ((splitAllChar '/' parsed.path.toList).filter (fun p => p ≠ []) = [] →
        extractFromParsed parsed = none) := by
  refine ⟨?_, ?_, ?_, ?_⟩
  · intro hhost t pid rest hparts hmod
    simp only [extractFromParsed, if_pos hhost, hparts, hmod, if_pos]
  · intro h1 h2
    simp only [extractFromParsed]
    rw [if_neg]
    rintro (h | h)
    · exact h1 h
    · exact h2 h
  · intro t rest hparts hmod
    simp only [extractFromParsed, hparts]
    cases rest with
    | nil => split <;> rfl
    | cons pid rest2 =>
      split
      · exact if_neg hmod
      · rfl
  · intro hparts
    simp only [extractFromParsed, hparts]
    split <;> rfl

/-- C1: for every input string that urlparse accepts, when the parsed host
is the canonical domain compared case-insensitively (with or without the
www. variant) and the path splits into nonempty segments whose first is the
mod tag (case-insensitively) followed by at least one more segment,
normalize returns that second segment verbatim (trailing segments
ignored); for every other host it returns none, and for every path whose
segments do not start with the mod tag (or that has no segments) it
returns none. -/
theorem normalize_canonical_host_mod_path (url : String) (parsed : ParseResult)
    (hparse : urlparseE url = .ok parsed) :
    ((lowerString parsed.netloc = "modrinth.com"
        ∨ lowerString parsed.netloc = "www.modrinth.com") →
      ∀ t pid rest,
        (splitAllChar '/' parsed.path.toList).filter (fun p => p ≠ []) = t :: pid :: rest →
        (lowerChars t).asString = "mod" →
        extract_modrinth_project_id url = some pid.asString)
    ∧ (lowerString parsed.netloc ≠ "modrinth.com" →
        lowerString parsed.netloc ≠ "www.modrinth.com" →
        extract_modrinth_project_id url = none)
    ∧ (∀ t rest,
        (splitAllChar '/' parsed.path.toList).filter (fun p => p ≠ []) = t :: rest →
        (lowerChars t).asString ≠ "mod" →
        extract_modrinth_project_id url = none)
    ∧ ((splitAllChar '/' parsed.path.toList).filter (fun p => p ≠ []) = [] →
        extract_modrinth_project_id url = none) := by
  have hext : extract_modrinth_project_id url = extractFromParsed parsed := by
    unfold extract_modrinth_project_id
    rw [hparse]
  rw [hext]
  exact extractFromParsed_spec parsed

/-- Witness for C1: a canonical-host URL with a trailing version segment
maps to its project id. -/
theorem normalize_canonical_host_mod_path_witness :
    extract_modrinth_project_id "https://modrinth.com/mod/zV5r3pPn/version/1.0.0"
      = some "zV5r3pPn" := by
  have h := (normalize_canonical_host_mod_path
      "https://modrinth.com/mod/zV5r3pPn/version/1.0.0"
      ⟨"https", "modrinth.com", "/mod/zV5r3pPn/version/1.0.0", "", "", ""⟩ (by rfl)).1
      (by decide)
      ['m', 'o', 'd'] ['z', 'V', '5', 'r', '3', 'p', 'P', 'n']
      [['v', 'e', 'r', 's', 'i', 'o', 'n'], ['1', '.', '0', '.', '0']]
      (by decide) (by decide)
  exact h

/-- C4: normalize is a total function: on every string it returns none or
some id, a parse error always becomes the none result, and the empty
string, non-URL garbage and a unicode host all give none. -/
theorem normalize_total_and_error_to_none :
    (∀ url e, urlparseE url = .error e → extract_modrinth_project_id url = none)
    ∧ (∀ url, extract_modrinth_project_id url = none
        ∨ ∃ pid, extract_modrinth_project_id url = some pid)
    ∧ extract_modrinth_project_id "" = none
    ∧ extract_modrinth_project_id "!! definitely not a url !!" = none
    ∧ extract_modrinth_project_id "https://модринт.example/mod/abc" = none := by
  refine ⟨?_, ?_, by decide, by decide, by decide⟩
  · intro url e h
    unfold extract_modrinth_project_id
    rw [h]
  · intro url
    cases h : extract_modrinth_project_id url with
    | none => exact Or.inl rfl
    | some pid => exact Or.inr ⟨pid, rfl⟩

/-- Witness for C4: the one input class where CPython urlparse raises (a
mismatched bracket in the authority) is mapped to none. -/
theorem normalize_total_and_error_to_none_witness :
    extract_modrinth_project_id "http://[::1" = none :=
  normalize_total_and_error_to_none.1 "http://[::1" "Invalid IPv6 URL" (by rfl)

/-- Helper for C9: splitting at an absent character leaves the list whole. -/
theorem splitOnceChar_eq_self (sep : Char) (l : List Char) (h : ∀ c ∈ l, c ≠ sep) :
    splitOnceChar sep l = (l, []) := by
  unfold splitOnceChar
  have hall : ∀ c ∈ l, (c != sep) = true := by
    intro c hc
    simpa using h c hc
  rw [List.takeWhile_eq_self_iff.mpr hall]
  rw [List.dropWhile_eq_nil_iff.mpr hall]
  rfl

/-- Helper for C9: what urlparse adds on top of a successful urlsplit. -/
theorem urlparse_after_split (url : String) (r : SplitUrl) (h : urlsplitE url = .ok r) :
    ∃ parsed, urlparseE url = .ok parsed ∧ parsed.netloc = r.netloc
      ∧ (r.path.toList.contains ';' = false →
          parsed = ⟨r.scheme, r.netloc, r.path, "", r.query, r.fragment⟩) := by
  by_cases hc : usesParams.contains r.scheme = true ∧ r.path.toList.contains ';' = true
  · refine ⟨⟨r.scheme, r.netloc, ((splitparams r.path.toList).1).asString,
      ((splitparams r.path.toList).2).asString, r.query, r.fragment⟩, ?_, rfl, ?_⟩
    · simp only [urlparseE, h]
      rw [if_pos hc]
    · intro hn
      rw [hn] at hc
      exact absurd hc.2 (by simp)
  · refine ⟨⟨r.scheme, r.netloc, r.path, "", r.query, r.fragment⟩, ?_, rfl, fun _ => rfl⟩
    simp only [urlparseE, h]
    rw [if_neg hc]

/-- C9: for every input whose cleaned text has no colon (so no scheme) and
does not start with a double slash (so no authority marker), urlparse
succeeds with an empty host, hence normalize returns none; when the text
also has no hash, question mark or semicolon the whole cleaned text lands
in the path.  In particular a scheme-qualified URL is required even when
the text names the canonical domain and a mod path. -/
theorem schemeless_text_has_empty_host (url : String)
    (hcolon : ∀ c ∈ cleanUrl url, c ≠ ':')
    (hslash : (cleanUrl url).take 2 ≠ ['/', '/']) :
    ∃ parsed, urlparseE url = .ok parsed ∧ parsed.netloc = ""
      ∧ extract_modrinth_project_id url = none
      ∧ ((∀ c ∈ cleanUrl url, c ≠ '#' ∧ c ≠ '?' ∧ c ≠ ';') →
          parsed.path = (cleanUrl url).asString) := by
  have hscheme : splitScheme (cleanUrl url) = none := by
    unfold splitScheme
    rw [List.findIdx?_eq_none_iff.mpr (by intro c hc; simpa using hcolon c hc)]
  have hsplit : urlsplitE url
      = .ok ⟨"", "",
          ((splitOnceChar '?' (splitOnceChar '#' (cleanUrl url)).1).1).asString,
          ((splitOnceChar '?' (splitOnceChar '#' (cleanUrl url)).1).2).asString,
          ((splitOnceChar '#' (cleanUrl url)).2).asString⟩ := by
    simp only [urlsplitE, hscheme]
    rw [if_neg hslash]
    rfl
  obtain ⟨parsed, hup, hnet, hcond⟩ := urlparse_after_split url _ hsplit
  have hnet0 : parsed.netloc = "" := hnet.trans rfl
  have hnone : extract_modrinth_project_id url = none := by
    unfold extract_modrinth_project_id
    rw [hup]
    show extractFromParsed parsed = none
    refine (extractFromParsed_spec parsed).2.1 ?_ ?_ <;> rw [hnet0] <;> decide
  refine ⟨parsed, hup, hnet0, hnone, ?_⟩
  intro hclean
  have hp0sub : ∀ c ∈ (splitOnceChar '?' (splitOnceChar '#' (cleanUrl url)).1).1,
      c ∈ cleanUrl url := by
    intro c hc
    have h1 : c ∈ (splitOnceChar '#' (cleanUrl url)).1 :=
      (List.takeWhile_sublist _).subset hc
    exact (List.takeWhile_sublist _).subset h1
  have hns : ((splitOnceChar '?' (splitOnceChar '#' (cleanUrl url)).1).1).contains ';'
      = false := by
    rw [Bool.eq_false_iff]
    intro hct
    exact (hclean ';' (hp0sub ';' (List.elem_iff.mp hct))).2.2 rfl
  have hparsed := hcond hns
  have hhash : splitOnceChar '#' (cleanUrl url) = (cleanUrl url, []) :=
    splitOnceChar_eq_self '#' _ (fun c hc => (hclean c hc).1)
  have hquery : splitOnceChar '?' (cleanUrl url) = (cleanUrl url, []) :=
    splitOnceChar_eq_self '?' _ (fun c hc => (hclean c hc).2.1)
  rw [hparsed]
  show ((splitOnceChar '?' (splitOnceChar '#' (cleanUrl url)).1).1).asString
      = (cleanUrl url).asString
  rw [hhash]
  show ((splitOnceChar '?' (cleanUrl url)).1).asString = (cleanUrl url).asString
  rw [hquery]

/-- Witness for C9: the canonical domain with a mod path but no scheme is
rejected. -/
theorem schemeless_text_has_empty_host_witness :
    extract_modrinth_project_id "modrinth.com/mod/abc" = none := by
  obtain ⟨parsed, -, -, hnone, -⟩ :=
    schemeless_text_has_empty_host "modrinth.com/mod/abc" (by decide) (by decide)
  exact hnone

/-- Helper for C6: inserting an id the way the loop body does keeps the
accumulated list free of duplicates. -/
theorem nodup_insert_pid (acc : List String) (pid : String) (hacc : acc.Nodup) :
    (if acc.contains pid then acc else acc ++ [pid]).Nodup := by
  by_cases hc : acc.contains pid = true
  · rw [if_pos hc]
    exact hacc
  · rw [if_neg hc]
    have hmem : pid ∉ acc := fun hm => hc (List.elem_iff.mpr hm)
    simp [List.nodup_append, hacc, hmem]

/-- C6: the resolved id list built from a modlist never holds duplicates:
whenever the collection loop is started on a duplicate-free accumulator (as
main.py does, with the empty list) and runs to completion, the resulting id
list is duplicate-free, two entries resolving to the same id contributing
it once. -/
theorem collect_preserves_nodup :
    ∀ (modlist : List ModEntry) (inputs acc : List String) (skipped : Nat)
      (ids : List String) (skipped2 : Nat) (rest : List String),
      acc.Nodup →
      collect_project_ids_from_modlist modlist inputs acc skipped
        = .ok (ids, skipped2) rest →
      ids.Nodup := by
  intro modlist
  induction modlist with
  | nil =>
    intro inputs acc skipped ids skipped2 rest hacc h
    simp only [collect_project_ids_from_modlist, Res.ok.injEq, Prod.mk.injEq] at h
    rcases h with ⟨⟨h1, -⟩, -⟩
    exact h1 ▸ hacc
  | cons e tl ih =>
    intro inputs acc skipped ids skipped2 rest hacc h
    rcases e with ⟨ename, eurl⟩
    cases eurl with
    | none =>
      cases hpr : prompt_for_modrinth_url inputs with
      | ok pidOpt inputs2 =>
        cases pidOpt with
        | some pid =>
          simp only [collect_project_ids_from_modlist, hpr] at h
          exact ih _ _ _ _ _ _ (nodup_insert_pid acc pid hacc) h
        | none =>
          simp only [collect_project_ids_from_modlist, hpr] at h
          exact ih _ _ _ _ _ _ hacc h
      | exited c => simp [collect_project_ids_from_modlist, hpr] at h
      | err => simp [collect_project_ids_from_modlist, hpr] at h
      | eof => simp [collect_project_ids_from_modlist, hpr] at h
    | some u =>
      by_cases hu : u = ""
      · subst hu
        cases hpr : prompt_for_modrinth_url inputs with
        | ok pidOpt inputs2 =>
          cases pidOpt with
          | some pid =>
            simp only [collect_project_ids_from_modlist, if_pos rfl, hpr] at h
            exact ih _ _ _ _ _ _ (nodup_insert_pid acc pid hacc) h
          | none =>
            simp only [collect_project_ids_from_modlist, if_pos rfl, hpr] at h
            exact ih _ _ _ _ _ _ hacc h
        | exited c => simp [collect_project_ids_from_modlist, hpr] at h
        | err => simp [collect_project_ids_from_modlist, hpr] at h
        | eof => simp [collect_project_ids_from_modlist, hpr] at h
      · cases hex : extract_modrinth_project_id u with
        | some pid =>
          simp only [collect_project_ids_from_modlist, if_neg hu, hex] at h
          exact ih _ _ _ _ _ _ (nodup_insert_pid acc pid hacc) h
        | none =>
          cases hpr : prompt_for_modrinth_url inputs with
          | ok pidOpt inputs2 =>
            cases pidOpt with
            | some pid =>
              simp only [collect_project_ids_from_modlist, if_neg hu, hex, hpr] at h
              exact ih _ _ _ _ _ _ (nodup_insert_pid acc pid hacc) h
            | none =>
              simp only [collect_project_ids_from_modlist, if_neg hu, hex, hpr] at h
              exact ih _ _ _ _ _ _ hacc h
          | exited c => simp [collect_project_ids_from_modlist, hu, hex, hpr] at h
          | err => simp [collect_project_ids_from_modlist, hu, hex, hpr] at h
          | eof => simp [collect_project_ids_from_modlist, hu, hex, hpr] at h

/-- Witness for C6: two entries resolving to the same id contribute it
once. -/
theorem collect_preserves_nodup_witness :
    collect_project_ids_from_modlist
      [⟨some "A", some "https://modrinth.com/mod/abc"⟩,
       ⟨some "B", some "https://modrinth.com/mod/abc"⟩] [] [] 0
      = .ok (["abc"], 0) []
    ∧ List.Nodup ["abc"] :=
  ⟨by decide,
    collect_preserves_nodup
      [⟨some "A", some "https://modrinth.com/mod/abc"⟩,
       ⟨some "B", some "https://modrinth.com/mod/abc"⟩]
      [] [] 0 ["abc"] 0 [] List.nodup_nil (by decide)⟩

/-- C3 counterexample: a run aborted by the operator at the collection
picker issues no mutating call but exits with status 1, not 0 as claimed
(main.py line 262 calls sys.exit(1)). -/
theorem abort_exit_status_counterexample :
    (main_after_sync [⟨some "c1", some "col"⟩] none [] ⟨.falsy⟩ false true ["q"]).status
      = .exited 1
    ∧ (main_after_sync [⟨some "c1", some "col"⟩] none [] ⟨.falsy⟩ false true ["q"]).status
      ≠ .exited 0
    ∧ (main_after_sync [⟨some "c1", some "col"⟩] none [] ⟨.falsy⟩ false true ["q"]).patches
      = [] := by
  decide

/-- C3 amended: every operator abort issues zero mutating calls; the
final-confirmation abort exits with status 0, while an abort at the
collection picker or at the interactive resolver exits with status 1. -/
theorem operator_abort_never_patches
    (collections : List Collection) (c : Collection) (modlist : List ModEntry)
    (detail : CollectionDetail) (dryRun patchOk : Bool)
    (ans eid name : String) (rest : List String)
    (hq : lowerString (pyStrip ans) = "q" ∨ lowerString (pyStrip ans) = "quit")
    (heid : eid ≠ "")
    (hfound : collections.any (fun col => col.id == some eid) = true) :
    main_after_sync (c :: collections) none modlist detail dryRun patchOk (ans :: rest)
      = ⟨.exited 1, [], false, none⟩
    ∧ main_after_sync collections (some eid) [⟨some name, none⟩] detail dryRun patchOk
        (ans :: rest)
      = ⟨.exited 1, [], false, none⟩
    ∧ ∀ confirmAns : String,
        lowerString (pyStrip confirmAns) ≠ "y" →
        lowerString (pyStrip confirmAns) ≠ "yes" →
        (main_after_sync collections (some eid) [] detail dryRun patchOk
            [confirmAns]).status = .exited 0
        ∧ (main_after_sync collections (some eid) [] detail dryRun patchOk
            [confirmAns]).patches = [] := by
  refine ⟨?_, ?_, ?_⟩
  · rcases hq with h | h <;>
      simp [main_after_sync, choose_collection, choose_collection_loop, h]
  · rcases hq with h | h <;> cases rest <;>
      simp [main_after_sync, choose_collection, heid, hfound,
        collect_project_ids_from_modlist, prompt_for_modrinth_url, h]
  · intro confirmAns hy1 hy2
    constructor <;>
      simp [main_after_sync, choose_collection, heid, hfound,
        collect_project_ids_from_modlist, merge, hy1, hy2]

/-- Witness for the amended C3 at concrete runs: abort at the picker, at
the resolver, and at the final confirmation. -/
theorem operator_abort_never_patches_witness :
    main_after_sync [⟨some "c0", none⟩, ⟨some "c1", some "col"⟩] none [] ⟨.falsy⟩
        false true ["q"]
      = ⟨.exited 1, [], false, none⟩
    ∧ main_after_sync [⟨some "c1", some "col"⟩] (some "c1")
        [⟨some "left behind", none⟩] ⟨.falsy⟩ false true ["q"]
      = ⟨.exited 1, [], false, none⟩
    ∧ (main_after_sync [⟨some "c1", some "col"⟩] (some "c1") [] ⟨.falsy⟩
        false true ["n"]).status = .exited 0
    ∧ (main_after_sync [⟨some "c1", some "col"⟩] (some "c1") [] ⟨.falsy⟩
        false true ["n"]).patches = [] := by
  obtain ⟨h1, h2, h3⟩ :=
    operator_abort_never_patches [⟨some "c1", some "col"⟩] ⟨some "c0", none⟩ []
      ⟨.falsy⟩ false true "q" "c1" "left behind" [] (Or.inl (by decide))
      (by decide) (by decide)
  obtain ⟨h4, h5⟩ := h3 "n" (by decide) (by decide)
  exact ⟨h1, h2, h4, h5⟩

/-- C7: a dry run never issues a PATCH, and it reaches the same ending,
summary and warnings as a normal run whose update call succeeds: fetch,
normalize, merge and confirmation are untouched by the flag. -/
theorem dry_run_never_patches (collections : List Collection) (explicitId : Option String)
    (modlist : List ModEntry) (detail : CollectionDetail) (patchOk : Bool)
    (inputs : List String) :
    (main_after_sync collections explicitId modlist detail true patchOk inputs).patches
      = []
    ∧ (main_after_sync collections explicitId modlist detail true patchOk inputs).status
      = (main_after_sync collections explicitId modlist detail false true inputs).status
    ∧ (main_after_sync collections explicitId modlist detail true patchOk inputs).summary
      = (main_after_sync collections explicitId modlist detail false true inputs).summary
    ∧ (main_after_sync collections explicitId modlist detail true patchOk
        inputs).warnedProjects
      = (main_after_sync collections explicitId modlist detail false true
          inputs).warnedProjects := by
  cases hc : choose_collection collections explicitId inputs with
  | exited c => simp [main_after_sync, hc]
  | err => simp [main_after_sync, hc]
  | eof => simp [main_after_sync, hc]
  | ok cid inputs1 =>
    cases hcol : collect_project_ids_from_modlist modlist inputs1 [] 0 with
    | exited c => simp [main_after_sync, hc, hcol]
    | err => simp [main_after_sync, hc, hcol]
    | eof => simp [main_after_sync, hc, hcol]
    | ok res inputs2 =>
      obtain ⟨pids, skipped⟩ := res
      cases inputs2 with
      | nil => simp [main_after_sync, hc, hcol]
      | cons confirm rest =>
        by_cases hy : lowerString (pyStrip confirm) = "y"
            ∨ lowerString (pyStrip confirm) = "yes"
        · simp [main_after_sync, hc, hcol, hy]
        · simp [main_after_sync, hc, hcol, hy]

/-- C8 counterexample: a falsy non-sequence projects field (the empty
string, 0, false, or an empty object) is a members field that is not a
sequence, yet a run over it reaches the merge with the existing set
treated as empty, completes the update, and never prints the warning the
claim promises: the or-default at main.py line 391 swallows the value
before the isinstance check at line 392 can warn. -/
theorem falsy_non_sequence_members_counterexample :
    existingProjectsOf .falsyNonSeq = ([], false)
    ∧ (main_after_sync [⟨some "c1", some "col"⟩] (some "c1")
        [⟨some "Fabric API", some "https://modrinth.com/mod/P7dR8mSH"⟩]
        ⟨.falsyNonSeq⟩ false true ["y"]).summary = some (["P7dR8mSH"], 1)
    ∧ (main_after_sync [⟨some "c1", some "col"⟩] (some "c1")
        [⟨some "Fabric API", some "https://modrinth.com/mod/P7dR8mSH"⟩]
        ⟨.falsyNonSeq⟩ false true ["y"]).status = .completed
    ∧ (main_after_sync [⟨some "c1", some "col"⟩] (some "c1")
        [⟨some "Fabric API", some "https://modrinth.com/mod/P7dR8mSH"⟩]
        ⟨.falsyNonSeq⟩ false true ["y"]).warnedProjects = false := by
  decide

/-- C8 amended: every non-sequence projects field in the fetched collection
detail is treated exactly like an empty member list: the run takes the same
ending with the same summary and the same PATCH traffic as with an empty
member set, and it never fails on that account; the warning is printed only
for truthy non-sequence values (emitted precisely when the run reaches the
merge step), while a falsy non-sequence value is silently replaced by the
empty list with no warning. -/
theorem non_sequence_members_treated_as_empty (collections : List Collection)
    (explicitId : Option String) (modlist : List ModEntry)
    (dryRun patchOk : Bool) (inputs : List String) :
    (main_after_sync collections explicitId modlist ⟨.malformed⟩ dryRun patchOk
        inputs).status
      = (main_after_sync collections explicitId modlist ⟨.falsy⟩ dryRun patchOk
          inputs).status
    ∧ (main_after_sync collections explicitId modlist ⟨.malformed⟩ dryRun patchOk
        inputs).patches
      = (main_after_sync collections explicitId modlist ⟨.falsy⟩ dryRun patchOk
          inputs).patches
    ∧ (main_after_sync collections explicitId modlist ⟨.malformed⟩ dryRun patchOk
        inputs).summary
      = (main_after_sync collections explicitId modlist ⟨.falsy⟩ dryRun patchOk
          inputs).summary
    ∧ (main_after_sync collections explicitId modlist ⟨.falsy⟩ dryRun patchOk
        inputs).warnedProjects = false
    ∧ (main_after_sync collections explicitId modlist ⟨.malformed⟩ dryRun patchOk
        inputs).warnedProjects
      = ((main_after_sync collections explicitId modlist ⟨.malformed⟩ dryRun patchOk
          inputs).summary).isSome
    ∧ (main_after_sync collections explicitId modlist ⟨.falsyNonSeq⟩ dryRun patchOk
        inputs).status
      = (main_after_sync collections explicitId modlist ⟨.falsy⟩ dryRun patchOk
          inputs).status
    ∧ (main_after_sync collections explicitId modlist ⟨.falsyNonSeq⟩ dryRun patchOk
        inputs).patches
      = (main_after_sync collections explicitId modlist ⟨.falsy⟩ dryRun patchOk
          inputs).patches
    ∧ (main_after_sync collections explicitId modlist ⟨.falsyNonSeq⟩ dryRun patchOk
        inputs).summary
      = (main_after_sync collections explicitId modlist ⟨.falsy⟩ dryRun patchOk
          inputs).summary
    ∧ (main_after_sync collections explicitId modlist ⟨.falsyNonSeq⟩ dryRun patchOk
        inputs).warnedProjects = false
    ∧ existingProjectsOf .malformed = ([], true)
    ∧ existingProjectsOf .falsyNonSeq = ([], false) := by
  cases hc : choose_collection collections explicitId inputs with
  | exited c => simp [main_after_sync, hc, existingProjectsOf]
  | err => simp [main_after_sync, hc, existingProjectsOf]
  | eof => simp [main_after_sync, hc, existingProjectsOf]
  | ok cid inputs1 =>
    cases hcol : collect_project_ids_from_modlist modlist inputs1 [] 0 with
    | exited c => simp [main_after_sync, hc, hcol, existingProjectsOf]
    | err => simp [main_after_sync, hc, hcol, existingProjectsOf]
    | eof => simp [main_after_sync, hc, hcol, existingProjectsOf]
    | ok res inputs2 =>
      obtain ⟨pids, skipped⟩ := res
      cases inputs2 with
      | nil => simp [main_after_sync, hc, hcol, existingProjectsOf]
      | cons confirm rest =>
        by_cases hy : lowerString (pyStrip confirm) = "y"
            ∨ lowerString (pyStrip confirm) = "yes"
        · cases dryRun with
          | false =>
            cases patchOk with
            | false => simp [main_after_sync, hc, hcol, hy, existingProjectsOf]
            | true => simp [main_after_sync, hc, hcol, hy, existingProjectsOf]
          | true => simp [main_after_sync, hc, hcol, hy, existingProjectsOf]
        · simp [main_after_sync, hc, hcol, hy, existingProjectsOf]

/-- C10: persisting the snapshot merges into the loaded state: the update
assigns exactly the keys user_id, collections and synced_at, and every
other top-level key keeps the value the loaded state had. -/
theorem sync_state_touches_three_keys {V : Type} (state : String → Option V)
    (userId collections syncedAt : V) (k : String)
    (h1 : k ≠ "user_id") (h2 : k ≠ "collections") (h3 : k ≠ "synced_at") :
    sync_collections_to_state state userId collections syncedAt k = state k
    ∧ sync_collections_to_state state userId collections syncedAt "user_id"
      = some userId
    ∧ sync_collections_to_state state userId collections syncedAt "collections"
      = some collections
    ∧ sync_collections_to_state state userId collections syncedAt "synced_at"
      = some syncedAt := by
  refine ⟨?_, by simp [sync_collections_to_state], by simp [sync_collections_to_state],
    by simp [sync_collections_to_state]⟩
  simp [sync_collections_to_state, h1, h2, h3]

/-- Witness for C10: an unrelated key keeps its loaded value and the three
assigned keys take the new values. -/
theorem sync_state_touches_three_keys_witness :
    sync_collections_to_state
      (fun k => if k = "extra" then some 7 else none) 1 2 3 "extra" = some 7
    ∧ sync_collections_to_state
      (fun k => if k = "extra" then some 7 else none) 1 2 3 "user_id" = some 1
    ∧ sync_collections_to_state
      (fun k => if k = "extra" then some 7 else none) 1 2 3 "collections" = some 2
    ∧ sync_collections_to_state
      (fun k => if k = "extra" then some 7 else none) 1 2 3 "synced_at" = some 3 := by
  obtain ⟨ha, hb, hc, hd⟩ :=
    sync_state_touches_three_keys (fun k => if k = "extra" then some (7 : Nat) else none)
      1 2 3 "extra" (by decide) (by decide) (by decide)
  exact ⟨ha.trans (by decide), hb, hc, hd⟩

end ModrinthTool
